import Mathlib

/-!
Verification of the QR attendance-token protocol of the NUTM QR-code
attendance application.

The embedded code:
* the token codec `generateQRHash` (server routes, shared/schema.ts);
* the token issuer, i.e. the GET /api/student/generate-qr handler;
* the attendance validator, i.e. the POST /api/attendance/scan handler;
* the in-memory record store `MemStorage` (server/storage.ts) with its
  JavaScript `Map`-backed entity tables, modelled as association lists.

External runtime primitives are parameters of the embedding:
* `sha256hex : String → String` stands for
  `crypto.createHash('sha256').update(data).digest('hex')`;
* `parseDate : String → Option Int` stands for `new Date(s).getTime()`
  in milliseconds, `none` when the string does not parse (JS `NaN`);
* `now : Int` is the wall-clock time in milliseconds at the handler call.

JavaScript comparison semantics for `NaN` (every comparison is false) is
reflected in the expiry check: an unparseable timestamp never counts as
expired, exactly as `NaN > 600000` is false.
-/

namespace NUTMQR

/-- A user row (users table of shared/schema.ts). -/
structure User where
  id : Int
  username : String
  password : String
  email : String
  name : String
  role : String
  facultyId : Option Int
  deriving Repr, DecidableEq

/-- A course row (courses table of shared/schema.ts). -/
structure Course where
  id : Int
  courseCode : String
  courseName : String
  lecturer : String
  totalSessions : Int
  semester : String
  description : Option String
  minAttendancePercentage : Int
  deriving Repr, DecidableEq

/-- A class-session row (sessions table of shared/schema.ts); `date` is a
timestamp in milliseconds. -/
structure Session where
  id : Int
  courseId : Int
  date : Int
  startTime : String
  endTime : String
  deriving Repr, DecidableEq

/-- An enrollment row (enrollments table of shared/schema.ts). -/
structure Enrollment where
  id : Int
  studentId : Int
  courseId : Int
  deriving Repr, DecidableEq

/-- An attendance row (attendance table of shared/schema.ts); `timestamp`
is the server-assigned commit time in milliseconds. -/
structure Attendance where
  id : Int
  studentId : Int
  sessionId : Int
  timestamp : Int
  qrCode : String
  deriving Repr, DecidableEq

/-- A faculty row (faculties table of shared/schema.ts). -/
structure Faculty where
  id : Int
  name : String
  deriving Repr, DecidableEq

/-- An attendance row before id assignment (`InsertAttendance`). -/
structure InsertAttendance where
  studentId : Int
  sessionId : Int
  timestamp : Int
  qrCode : String
  deriving Repr, DecidableEq

/-- The wire payload of a QR token (`qrCodeSchema` of shared/schema.ts). -/
structure QRCodeData where
  studentId : Int
  sessionId : Int
  timestamp : String
  hash : String
  deriving Repr, DecidableEq

/-- Lookup in a JavaScript `Map` keyed by number, modelled as an
insertion-ordered association list: `Map.prototype.get`. -/
def mapGet {α : Type} (m : List (Int × α)) (k : Int) : Option α :=
  (m.find? (fun p => p.1 == k)).map (fun p => p.2)

/-- `Map.prototype.set`: replace the value in place when the key is
present, otherwise append the new entry. -/
def mapSet {α : Type} (m : List (Int × α)) (k : Int) (v : α) : List (Int × α) :=
  match m with
  | [] => [(k, v)]
  | (k0, v0) :: rest => if k0 == k then (k, v) :: rest else (k0, v0) :: mapSet rest k v

/-- `Array.from(map.values())`: the values in insertion order. -/
def mapValues {α : Type} (m : List (Int × α)) : List α :=
  m.map (fun p => p.2)

/-- The state of `MemStorage` (server/storage.ts): one `Map` per entity
plus the id counters. -/
structure MemStorage where
  users : List (Int × User)
  courses : List (Int × Course)
  sessions : List (Int × Session)
  enrollments : List (Int × Enrollment)
  attendances : List (Int × Attendance)
  faculties : List (Int × Faculty)
  currentUserId : Int
  currentCourseId : Int
  currentSessionId : Int
  currentEnrollmentId : Int
  currentAttendanceId : Int
  currentFacultyId : Int
  deriving Repr, DecidableEq

/-- `MemStorage.getUser`. -/
def getUser (st : MemStorage) (id : Int) : Option User :=
  mapGet st.users id

/-- `MemStorage.getSession`. -/
def getSession (st : MemStorage) (id : Int) : Option Session :=
  mapGet st.sessions id

/-- `MemStorage.getSessions`. -/
def getSessions (st : MemStorage) : List Session :=
  mapValues st.sessions

/-- `MemStorage.getEnrollmentsByStudent`. -/
def getEnrollmentsByStudent (st : MemStorage) (studentId : Int) : List Enrollment :=
  (mapValues st.enrollments).filter (fun e => e.studentId == studentId)

/-- `MemStorage.getAttendanceBySession`. -/
def getAttendanceBySession (st : MemStorage) (sessionId : Int) : List Attendance :=
  (mapValues st.attendances).filter (fun a => a.sessionId == sessionId)

/-- `MemStorage.createAttendance`: take the next id, store the new row,
bump the counter, return the created row. -/
def createAttendance (st : MemStorage) (ins : InsertAttendance) : Attendance × MemStorage :=
  let id := st.currentAttendanceId
  let newAttendance : Attendance :=
    { id := id, studentId := ins.studentId, sessionId := ins.sessionId,
      timestamp := ins.timestamp, qrCode := ins.qrCode }
  (newAttendance,
    { st with attendances := mapSet st.attendances id newAttendance,
              currentAttendanceId := id + 1 })

/-- The string hashed by the codec: the template literal
concatenating the three signed fields with colons. -/
def qrHashInput (studentId sessionId : Int) (timestamp : String) : String :=
  toString studentId ++ ":" ++ toString sessionId ++ ":" ++ timestamp

/-- `generateQRHash` (routes): sha-256 hex digest of `qrHashInput`,
with the hash primitive as a parameter of the embedding. -/
def generateQRHash (sha256hex : String → String)
    (studentId sessionId : Int) (timestamp : String) : String :=
  sha256hex (qrHashInput studentId sessionId timestamp)

/-- The expiry test of the scan handler: `now - parse(issuedAt) > 600000`.
An unparseable timestamp gives a `NaN` difference in JavaScript and every
`NaN` comparison is false, so the token does not count as expired then. -/
def expiredCheck (parseDate : String → Option Int) (now : Int) (timestamp : String) : Bool :=
  match parseDate timestamp with
  | some t => decide (now - t > 600000)
  | none => false

/-- The outcome of the POST /api/attendance/scan handler: one of the six
rejection messages or the created attendance row. -/
inductive ScanResult where
  | invalidToken
  | tokenExpired
  | studentNotFound
  | sessionNotFound
  | notEnrolled
  | alreadyRecorded
  | recorded (attendanceRecord : Attendance)
  deriving Repr, DecidableEq

/-- The POST /api/attendance/scan handler after authentication
(routes registered in registerRoutes), as a state transformer:
verify the fingerprint, check expiry, student, session, enrollment and
duplicates in the source's order, then commit via `createAttendance`. -/
def scanAttendance (sha256hex : String → String) (parseDate : String → Option Int)
    (now : Int) (st : MemStorage) (qrData : QRCodeData) : ScanResult × MemStorage :=
  let expectedHash := generateQRHash sha256hex qrData.studentId qrData.sessionId qrData.timestamp
  if qrData.hash ≠ expectedHash then (.invalidToken, st)
  else if expiredCheck parseDate now qrData.timestamp then (.tokenExpired, st)
  else
    match getUser st qrData.studentId with
    | none => (.studentNotFound, st)
    | some student =>
      if student.role ≠ "student" then (.studentNotFound, st)
      else
        match getSession st qrData.sessionId with
        | none => (.sessionNotFound, st)
        | some session =>
          let enrollmentList := getEnrollmentsByStudent st qrData.studentId
          if ¬ (enrollmentList.any (fun e => e.courseId == session.courseId)) then
            (.notEnrolled, st)
          else
            let existingAttendance :=
              (getAttendanceBySession st qrData.sessionId).filter
                (fun a => a.studentId == qrData.studentId)
            if existingAttendance.length > 0 then (.alreadyRecorded, st)
            else
              let result := createAttendance st
                { studentId := qrData.studentId, sessionId := qrData.sessionId,
                  timestamp := now, qrCode := qrData.hash }
              (.recorded result.1, result.2)

/-- The outcome of the GET /api/student/generate-qr handler. -/
inductive IssueResult where
  | noSessionAvailable
  | issued (qrData : QRCodeData) (expiresIn : Int)
  deriving Repr, DecidableEq

/-- `sessions.sort((a, b) => dateB - dateA)[0]`: the head of the stable
descending sort by date, i.e. the first listed session of maximal date. -/
def latestSession (l : List Session) : Option Session :=
  match l with
  | [] => none
  | s :: rest => some (rest.foldl (fun best cur => if cur.date > best.date then cur else best) s)

/-- The GET /api/student/generate-qr handler after authentication, as a
state transformer (the handler only reads the store): report when no
session exists, otherwise bind the token to the latest-dated session with
the captured issue timestamp `nowISO` and a 600-second expiry budget. -/
def generateQR (sha256hex : String → String) (st : MemStorage)
    (studentId : Int) (nowISO : String) : IssueResult × MemStorage :=
  match latestSession (getSessions st) with
  | none => (.noSessionAvailable, st)
  | some session =>
    let hash := generateQRHash sha256hex studentId session.id nowISO
    (.issued { studentId := studentId, sessionId := session.id,
               timestamp := nowISO, hash := hash } 600, st)

/-- Stage 1 of the validator: the presented fingerprint equals the
recomputed hash. -/
def checkHash (sha256hex : String → String) (qrData : QRCodeData) : Bool :=
  qrData.hash == generateQRHash sha256hex qrData.studentId qrData.sessionId qrData.timestamp

/-- Stage 2 of the validator: the token is not expired. -/
def checkNotExpired (parseDate : String → Option Int) (now : Int) (qrData : QRCodeData) : Bool :=
  !(expiredCheck parseDate now qrData.timestamp)

/-- Stage 3 of the validator: the student exists and has role student. -/
def checkStudent (st : MemStorage) (qrData : QRCodeData) : Bool :=
  match getUser st qrData.studentId with
  | some student => student.role == "student"
  | none => false

/-- Stage 4 of the validator: the session exists. -/
def checkSession (st : MemStorage) (qrData : QRCodeData) : Bool :=
  (getSession st qrData.sessionId).isSome

/-- Stage 5 of the validator: the student has an enrollment for the
session's course. -/
def checkEnrolled (st : MemStorage) (qrData : QRCodeData) : Bool :=
  match getSession st qrData.sessionId with
  | some session =>
    (getEnrollmentsByStudent st qrData.studentId).any (fun e => e.courseId == session.courseId)
  | none => false

/-- Stage 6 of the validator: no attendance row for this
(studentId, sessionId) pair exists yet. -/
def checkNotDuplicate (st : MemStorage) (qrData : QRCodeData) : Bool :=
  ((getAttendanceBySession st qrData.sessionId).filter
    (fun a => a.studentId == qrData.studentId)).isEmpty

/-- The insert row committed by the validator on success. -/
def commitRow (now : Int) (qrData : QRCodeData) : InsertAttendance :=
  { studentId := qrData.studentId, sessionId := qrData.sessionId,
    timestamp := now, qrCode := qrData.hash }

/-- The scan handler equals the strictly ordered short-circuit cascade of
its six checks followed by the commit. -/
theorem scanAttendance_eq_checks (sha256hex : String → String)
    (parseDate : String → Option Int) (now : Int) (st : MemStorage) (qrData : QRCodeData) :
    scanAttendance sha256hex parseDate now st qrData =
      if checkHash sha256hex qrData = false then (.invalidToken, st)
      else if checkNotExpired parseDate now qrData = false then (.tokenExpired, st)
      else if checkStudent st qrData = false then (.studentNotFound, st)
      else if checkSession st qrData = false then (.sessionNotFound, st)
      else if checkEnrolled st qrData = false then (.notEnrolled, st)
      else if checkNotDuplicate st qrData = false then (.alreadyRecorded, st)
      else (.recorded (createAttendance st (commitRow now qrData)).1,
            (createAttendance st (commitRow now qrData)).2) := by
  simp only [scanAttendance, checkHash, checkNotExpired, checkStudent, checkSession,
    checkEnrolled, checkNotDuplicate, commitRow]
  by_cases h1 : qrData.hash = generateQRHash sha256hex qrData.studentId qrData.sessionId qrData.timestamp
  · simp only [h1, ne_eq, not_true_eq_false, if_false, beq_self_eq_true, ite_false, Bool.true_eq_false]
    by_cases h2 : expiredCheck parseDate now qrData.timestamp
    · simp [h2]
    · simp only [h2, Bool.not_false, Bool.true_eq_false, if_false, Bool.false_eq_true, ite_false,
        if_true]
      cases hu : getUser st qrData.studentId with
      | none => simp
      | some student =>
        by_cases h3 : student.role = "student"
        · simp only [h3, ne_eq, not_true_eq_false, if_false, beq_self_eq_true, Bool.true_eq_false,
            ite_false]
          cases hs : getSession st qrData.sessionId with
          | none => simp
          | some session =>
            simp only [Option.isSome_some, Bool.true_eq_false, if_false, ite_false]
            by_cases h5 : (getEnrollmentsByStudent st qrData.studentId).any
                (fun e => e.courseId == session.courseId)
            · simp only [h5, not_true_eq_false, if_false, Bool.true_eq_false, ite_false]
              by_cases h6 : ((getAttendanceBySession st qrData.sessionId).filter
                  (fun a => a.studentId == qrData.studentId)) = []
              · simp [h6]
              · simp [h6, List.isEmpty_iff, List.length_pos]
            · simp [h5]
        · simp [h3]
  · simp [h1, beq_eq_false_iff_ne, ne_eq]

/-- Concrete stand-in for the opaque hash primitive, for evaluating the
embedding on concrete inputs; it is injective, as the claims assume of
sha-256 on distinct inputs. -/
def demoSha : String → String := fun s => s

/-- Concrete stand-in for `new Date(s).getTime()`: the string "0" parses
to epoch time 0, everything else is an invalid date. -/
def demoParse : String → Option Int := fun s => if s = "0" then some 0 else none

/-- A concrete student user (id 2). -/
def demoStudent : User :=
  { id := 2, username := "student", password := "student123",
    email := "student@nutm.edu.ng", name := "John Doe", role := "student",
    facultyId := none }

/-- A concrete class session (id 5) of course 9. -/
def demoSession : Session :=
  { id := 5, courseId := 9, date := 0, startTime := "10:30", endTime := "12:30" }

/-- Student 2 is enrolled in course 9. -/
def demoEnrollment : Enrollment := { id := 1, studentId := 2, courseId := 9 }

/-- A concrete store: student 2, session 5 of course 9, student enrolled,
no attendance yet. -/
def demoStore : MemStorage :=
  { users := [(2, demoStudent)], courses := [], sessions := [(5, demoSession)],
    enrollments := [(1, demoEnrollment)], attendances := [], faculties := [],
    currentUserId := 3, currentCourseId := 1, currentSessionId := 6,
    currentEnrollmentId := 2, currentAttendanceId := 1, currentFacultyId := 1 }

/-- A fingerprint-correct token for student 2, session 5, issued at
time 0 (under `demoSha`, the fingerprint is the raw input string). -/
def demoQR : QRCodeData :=
  { studentId := 2, sessionId := 5, timestamp := "0", hash := "2:5:0" }

/-- A token whose fingerprint matches nothing. -/
def demoQRBad : QRCodeData :=
  { studentId := 2, sessionId := 5, timestamp := "0", hash := "deadbeef" }

/-- Claim C1: for every presented token and store state the validator
runs its checks in the strict order fingerprint, expiry, student
existence/role, session existence, enrollment, duplicate; it
short-circuits at the first failing check with that check's distinct
rejection reason, and only when all six checks pass is an attendance
record created and returned. -/
theorem scan_pipeline_order (sha256hex : String → String)
    (parseDate : String → Option Int) (now : Int) (st : MemStorage) (qrData : QRCodeData) :
    (checkHash sha256hex qrData = false →
      scanAttendance sha256hex parseDate now st qrData = (.invalidToken, st)) ∧
    (checkHash sha256hex qrData = true →
      checkNotExpired parseDate now qrData = false →
      scanAttendance sha256hex parseDate now st qrData = (.tokenExpired, st)) ∧
    (checkHash sha256hex qrData = true →
      checkNotExpired parseDate now qrData = true →
      checkStudent st qrData = false →
      scanAttendance sha256hex parseDate now st qrData = (.studentNotFound, st)) ∧
    (checkHash sha256hex qrData = true →
      checkNotExpired parseDate now qrData = true →
      checkStudent st qrData = true →
      checkSession st qrData = false →
      scanAttendance sha256hex parseDate now st qrData = (.sessionNotFound, st)) ∧
    (checkHash sha256hex qrData = true →
      checkNotExpired parseDate now qrData = true →
      checkStudent st qrData = true →
      checkSession st qrData = true →
      checkEnrolled st qrData = false →
      scanAttendance sha256hex parseDate now st qrData = (.notEnrolled, st)) ∧
    (checkHash sha256hex qrData = true →
      checkNotExpired parseDate now qrData = true →
      checkStudent st qrData = true →
      checkSession st qrData = true →
      checkEnrolled st qrData = true →
      checkNotDuplicate st qrData = false →
      scanAttendance sha256hex parseDate now st qrData = (.alreadyRecorded, st)) ∧
    (checkHash sha256hex qrData = true →
      checkNotExpired parseDate now qrData = true →
      checkStudent st qrData = true →
      checkSession st qrData = true →
      checkEnrolled st qrData = true →
      checkNotDuplicate st qrData = true →
      ∃ a st2, scanAttendance sha256hex parseDate now st qrData = (.recorded a, st2) ∧
        a.studentId = qrData.studentId ∧ a.sessionId = qrData.sessionId ∧
        a.qrCode = qrData.hash ∧ a.timestamp = now) := by
  rw [scanAttendance_eq_checks]
  refine ⟨?_, ?_, ?_, ?_, ?_, ?_, ?_⟩ <;> intros <;> simp_all
  simp [createAttendance, commitRow]

/-- Witness for C1 at a concrete input: a garbage fingerprint is rejected
as an invalid token. -/
theorem scan_pipeline_order_witness :
    scanAttendance demoSha demoParse 0 demoStore demoQRBad = (.invalidToken, demoStore) :=
  (scan_pipeline_order demoSha demoParse 0 demoStore demoQRBad).1 (by decide)

/-- The attendance-id counter is fresh: every stored attendance key is
below it.  `MemStorage` establishes this at construction (counter 1, empty
map) and `createAttendance` maintains it. -/
def freshCounter (st : MemStorage) : Prop :=
  ∀ p ∈ st.attendances, p.1 < st.currentAttendanceId

instance (st : MemStorage) : Decidable (freshCounter st) := by
  unfold freshCounter; infer_instance

/-- `Map.set` with an absent key appends the entry. -/
theorem mapSet_eq_append {α : Type} (m : List (Int × α)) (k : Int) (v : α)
    (h : ∀ p ∈ m, p.1 ≠ k) : mapSet m k v = m ++ [(k, v)] := by
  induction m with
  | nil => simp [mapSet]
  | cons p rest ih =>
    obtain ⟨k0, v0⟩ := p
    have hk : k0 ≠ k := h (k0, v0) (List.mem_cons_self _ _)
    simp only [mapSet, beq_iff_eq, if_neg hk, List.cons_append, List.cons.injEq, true_and]
    exact ih (fun q hq => h q (List.mem_cons_of_mem _ hq))

/-- Either the scan rejects and returns the store untouched, or the
duplicate check succeeded and the scan commits exactly the one new row. -/
theorem scan_cases (sha256hex : String → String) (parseDate : String → Option Int)
    (now : Int) (st : MemStorage) (qrData : QRCodeData) :
    ((scanAttendance sha256hex parseDate now st qrData).2 = st ∧
      ∀ a, (scanAttendance sha256hex parseDate now st qrData).1 ≠ .recorded a) ∨
    (checkNotDuplicate st qrData = true ∧
      scanAttendance sha256hex parseDate now st qrData =
        (.recorded (createAttendance st (commitRow now qrData)).1,
         (createAttendance st (commitRow now qrData)).2)) := by
  rw [scanAttendance_eq_checks]
  by_cases h1 : checkHash sha256hex qrData = false
  · simp [h1]
  · by_cases h2 : checkNotExpired parseDate now qrData = false
    · simp [h1, h2]
    · by_cases h3 : checkStudent st qrData = false
      · simp [h1, h2, h3]
      · by_cases h4 : checkSession st qrData = false
        · simp [h1, h2, h3, h4]
        · by_cases h5 : checkEnrolled st qrData = false
          · simp [h1, h2, h3, h4, h5]
          · by_cases h6 : checkNotDuplicate st qrData = false
            · simp [h1, h2, h3, h4, h5, h6]
            · simp only [h1, h2, h3, h4, h5, h6, ite_false]
              exact Or.inr ⟨by trivial, rfl⟩

/-- Claim C5: a rejected validation leaves the store completely
unchanged; a successful validation appends exactly the one new attendance
row and modifies no other entity table. -/
theorem scan_frame (sha256hex : String → String) (parseDate : String → Option Int)
    (now : Int) (st : MemStorage) (qrData : QRCodeData)
    (hfresh : freshCounter st) :
    ((∀ a, (scanAttendance sha256hex parseDate now st qrData).1 ≠ .recorded a) →
      (scanAttendance sha256hex parseDate now st qrData).2 = st) ∧
    (∀ a, (scanAttendance sha256hex parseDate now st qrData).1 = .recorded a →
      (scanAttendance sha256hex parseDate now st qrData).2.users = st.users ∧
      (scanAttendance sha256hex parseDate now st qrData).2.courses = st.courses ∧
      (scanAttendance sha256hex parseDate now st qrData).2.sessions = st.sessions ∧
      (scanAttendance sha256hex parseDate now st qrData).2.enrollments = st.enrollments ∧
      (scanAttendance sha256hex parseDate now st qrData).2.faculties = st.faculties ∧
      mapValues (scanAttendance sha256hex parseDate now st qrData).2.attendances =
        mapValues st.attendances ++ [a]) := by
  rcases scan_cases sha256hex parseDate now st qrData with ⟨hst, hno⟩ | ⟨-, heq⟩
  · constructor
    · intro _; exact hst
    · intro a ha; exact absurd ha (hno a)
  · constructor
    · intro hno
      exact absurd (congrArg Prod.fst heq) (by simpa using hno (createAttendance st (commitRow now qrData)).1)
    · intro a ha
      have ha2 : a = (createAttendance st (commitRow now qrData)).1 := by
        have := congrArg Prod.fst heq
        simp only at this
        rw [ha] at this
        exact (ScanResult.recorded.injEq _ _).mp this.symm |>.symm
      subst ha2
      rw [heq]
      have hset : mapSet st.attendances st.currentAttendanceId
          (createAttendance st (commitRow now qrData)).1 =
          st.attendances ++ [(st.currentAttendanceId, (createAttendance st (commitRow now qrData)).1)] :=
        mapSet_eq_append _ _ _ (fun p hp => ne_of_lt (hfresh p hp))
      simp [createAttendance, commitRow, mapValues] at hset ⊢
      simp [hset]

/-- Witness for C5 at a concrete input: scanning the valid demo token on
the demo store succeeds and appends exactly one attendance row. -/
theorem scan_frame_witness :
    mapValues (scanAttendance demoSha demoParse 30000 demoStore demoQR).2.attendances =
      mapValues demoStore.attendances ++
        [{ id := 1, studentId := 2, sessionId := 5, timestamp := 30000, qrCode := "2:5:0" }] := by
  have h := (scan_frame demoSha demoParse 30000 demoStore demoQR (by decide)).2
    { id := 1, studentId := 2, sessionId := 5, timestamp := 30000, qrCode := "2:5:0" }
    (by decide)
  exact h.2.2.2.2.2

/-- At most one attendance row per (studentId, sessionId) pair. -/
def uniquePairs (st : MemStorage) : Prop :=
  (mapValues st.attendances).Pairwise
    (fun a b => ¬ (a.studentId = b.studentId ∧ a.sessionId = b.sessionId))

/-- Some attendance row for the pair is stored. -/
def pairRecorded (st : MemStorage) (studentId sessionId : Int) : Prop :=
  ∃ a ∈ mapValues st.attendances, a.studentId = studentId ∧ a.sessionId = sessionId

/-- The value just set is among the map's values. -/
theorem mem_mapValues_mapSet {α : Type} (m : List (Int × α)) (k : Int) (v : α) :
    v ∈ mapValues (mapSet m k v) := by
  induction m with
  | nil => simp [mapSet, mapValues]
  | cons p rest ih =>
    obtain ⟨k0, v0⟩ := p
    by_cases hk : k0 == k
    · simp [mapSet, hk, mapValues]
    · simp only [mapSet, hk, ite_false, Bool.false_eq_true, mapValues, List.map_cons,
        List.mem_cons]
      exact Or.inr ih

/-- A passed duplicate check means no stored row carries the token's
(studentId, sessionId) pair. -/
theorem notDuplicate_spec (st : MemStorage) (qrData : QRCodeData)
    (h : checkNotDuplicate st qrData = true) :
    ∀ a ∈ mapValues st.attendances,
      ¬ (a.studentId = qrData.studentId ∧ a.sessionId = qrData.sessionId) := by
  intro a ha hc
  unfold checkNotDuplicate getAttendanceBySession at h
  rw [List.isEmpty_iff] at h
  have h1 : a ∈ (mapValues st.attendances).filter (fun x => x.sessionId == qrData.sessionId) :=
    List.mem_filter.mpr ⟨ha, by simp [hc.2]⟩
  have h2 : a ∈ ((mapValues st.attendances).filter (fun x => x.sessionId == qrData.sessionId)).filter
      (fun x => x.studentId == qrData.studentId) :=
    List.mem_filter.mpr ⟨h1, by simp [hc.1]⟩
  rw [h] at h2
  exact absurd h2 (List.not_mem_nil a)

/-- A stored row for the token's pair makes the duplicate check fail. -/
theorem pairRecorded_notDuplicate (st : MemStorage) (qrData : QRCodeData)
    (h : pairRecorded st qrData.studentId qrData.sessionId) :
    checkNotDuplicate st qrData = false := by
  obtain ⟨a, ha, hs, hsess⟩ := h
  unfold checkNotDuplicate getAttendanceBySession
  rw [List.isEmpty_eq_false_iff_exists_mem]
  exact ⟨a, List.mem_filter.mpr ⟨List.mem_filter.mpr ⟨ha, by simp [hsess]⟩, by simp [hs]⟩⟩

/-- `mapValues` distributes over append. -/
theorem mapValues_append {α : Type} (x y : List (Int × α)) :
    mapValues (x ++ y) = mapValues x ++ mapValues y :=
  List.map_append _ _ _

/-- One scan step preserves the pair-uniqueness invariant, the counter
freshness and every already-recorded pair. -/
theorem scan_preserves_invariant (sha256hex : String → String)
    (parseDate : String → Option Int) (now : Int) (st : MemStorage) (qrData : QRCodeData)
    (h : uniquePairs st ∧ freshCounter st) :
    (uniquePairs (scanAttendance sha256hex parseDate now st qrData).2 ∧
      freshCounter (scanAttendance sha256hex parseDate now st qrData).2) ∧
    ∀ s i, pairRecorded st s i →
      pairRecorded (scanAttendance sha256hex parseDate now st qrData).2 s i := by
  rcases scan_cases sha256hex parseDate now st qrData with ⟨hst, -⟩ | ⟨hdup, heq⟩
  · rw [hst]; exact ⟨h, fun _ _ hp => hp⟩
  · have hst2 : (scanAttendance sha256hex parseDate now st qrData).2 =
        (createAttendance st (commitRow now qrData)).2 := by rw [heq]
    have hA : (createAttendance st (commitRow now qrData)).2.attendances =
        mapSet st.attendances st.currentAttendanceId
          (createAttendance st (commitRow now qrData)).1 := rfl
    have hC : (createAttendance st (commitRow now qrData)).2.currentAttendanceId =
        st.currentAttendanceId + 1 := rfl
    have hset : mapSet st.attendances st.currentAttendanceId
        (createAttendance st (commitRow now qrData)).1 =
        st.attendances ++ [(st.currentAttendanceId, (createAttendance st (commitRow now qrData)).1)] :=
      mapSet_eq_append _ _ _ (fun p hp => ne_of_lt (h.2 p hp))
    have hnew : (createAttendance st (commitRow now qrData)).1.studentId = qrData.studentId ∧
        (createAttendance st (commitRow now qrData)).1.sessionId = qrData.sessionId := by
      simp [createAttendance, commitRow]
    rw [hst2]
    refine ⟨⟨?_, ?_⟩, ?_⟩
    · unfold uniquePairs
      rw [hA, hset, mapValues_append, List.pairwise_append]
      refine ⟨h.1, by simp [mapValues], ?_⟩
      intro a ha b hb
      simp only [mapValues, List.map_cons, List.map_nil, List.mem_singleton] at hb
      subst hb
      intro hc
      exact notDuplicate_spec st qrData hdup a ha ⟨hc.1.trans hnew.1, hc.2.trans hnew.2⟩
    · unfold freshCounter
      rw [hA, hC, hset]
      intro p hp
      rcases List.mem_append.mp hp with hold | hnewp
      · exact lt_trans (h.2 p hold) (lt_add_one _)
      · simp only [List.mem_singleton] at hnewp
        subst hnewp
        exact lt_add_one _
    · intro s i ⟨a, ha, has, hai⟩
      refine ⟨a, ?_, has, hai⟩
      rw [hA, hset, mapValues_append]
      exact List.mem_append.mpr (Or.inl ha)

/-- States reachable from a given store by a sequence of validator
operations (each step is one POST /api/attendance/scan call). -/
inductive Reachable : MemStorage → MemStorage → Prop where
  | refl (st : MemStorage) : Reachable st st
  | step (st st2 : MemStorage) (sha256hex : String → String)
      (parseDate : String → Option Int) (now : Int) (qrData : QRCodeData) :
      Reachable st st2 →
      Reachable st (scanAttendance sha256hex parseDate now st2 qrData).2

/-- The invariant and every recorded pair propagate along reachability. -/
theorem reachable_invariant (st0 st : MemStorage)
    (h0 : uniquePairs st0 ∧ freshCounter st0) (hr : Reachable st0 st) :
    (uniquePairs st ∧ freshCounter st) ∧
    ∀ s i, pairRecorded st0 s i → pairRecorded st s i := by
  induction hr with
  | refl => exact ⟨h0, fun _ _ hp => hp⟩
  | step st2 sha256hex parseDate now qrData hprev ih =>
    have hstep := scan_preserves_invariant sha256hex parseDate now st2 qrData ih.1
    exact ⟨hstep.1, fun s i hp => hstep.2 s i (ih.2 s i hp)⟩

/-- An otherwise-valid token whose pair is already stored is rejected as
already recorded, with the store untouched. -/
theorem pairRecorded_scan (sha256hex : String → String) (parseDate : String → Option Int)
    (now : Int) (st : MemStorage) (qrData : QRCodeData)
    (hrec : pairRecorded st qrData.studentId qrData.sessionId)
    (h1 : checkHash sha256hex qrData = true)
    (h2 : checkNotExpired parseDate now qrData = true)
    (h3 : checkStudent st qrData = true)
    (h4 : checkSession st qrData = true)
    (h5 : checkEnrolled st qrData = true) :
    scanAttendance sha256hex parseDate now st qrData = (.alreadyRecorded, st) := by
  rw [scanAttendance_eq_checks]
  simp [h1, h2, h3, h4, h5, pairRecorded_notDuplicate st qrData hrec]

/-- Claim C2: after one successful commit for a (studentId, sessionId)
pair, every later sequential validation attempt with an otherwise-valid
token for the same pair fails with AlreadyRecorded and leaves the store
unchanged, and every state reachable by sequential validator operations
holds at most one attendance row per pair. -/
theorem attendance_pair_unique (sha0 : String → String) (parse0 : String → Option Int)
    (now0 : Int) (st0 stC st : MemStorage) (qr0 : QRCodeData) (a : Attendance)
    (h0 : uniquePairs st0 ∧ freshCounter st0)
    (hcommit : scanAttendance sha0 parse0 now0 st0 qr0 = (.recorded a, stC))
    (hr : Reachable stC st) :
    uniquePairs st ∧
    ∀ (sha256hex : String → String) (parseDate : String → Option Int) (now : Int)
      (qrData : QRCodeData),
      qrData.studentId = a.studentId → qrData.sessionId = a.sessionId →
      checkHash sha256hex qrData = true →
      checkNotExpired parseDate now qrData = true →
      checkStudent st qrData = true →
      checkSession st qrData = true →
      checkEnrolled st qrData = true →
      scanAttendance sha256hex parseDate now st qrData = (.alreadyRecorded, st) := by
  have hCgood : uniquePairs stC ∧ freshCounter stC := by
    have := (scan_preserves_invariant sha0 parse0 now0 st0 qr0 h0).1
    rwa [hcommit] at this
  have hCpair : pairRecorded stC a.studentId a.sessionId := by
    rcases scan_cases sha0 parse0 now0 st0 qr0 with ⟨-, hno⟩ | ⟨-, heq⟩
    · exact absurd (congrArg Prod.fst hcommit) (hno a)
    · rw [hcommit] at heq
      have ha : a = (createAttendance st0 (commitRow now0 qr0)).1 :=
        (ScanResult.recorded.injEq _ _).mp (congrArg Prod.fst heq)
      have hstC : stC = (createAttendance st0 (commitRow now0 qr0)).2 :=
        congrArg Prod.snd heq
      refine ⟨a, ?_, rfl, rfl⟩
      rw [hstC]
      have hA : (createAttendance st0 (commitRow now0 qr0)).2.attendances =
          mapSet st0.attendances st0.currentAttendanceId
            (createAttendance st0 (commitRow now0 qr0)).1 := rfl
      rw [hA, ← ha]
      exact ha ▸ mem_mapValues_mapSet st0.attendances st0.currentAttendanceId a
  have hreach := reachable_invariant stC st hCgood hr
  refine ⟨hreach.1.1, ?_⟩
  intro sha256hex parseDate now qrData hs hi h1 h2 h3 h4 h5
  have hpair : pairRecorded st qrData.studentId qrData.sessionId := by
    rw [hs, hi]
    exact hreach.2 a.studentId a.sessionId hCpair
  exact pairRecorded_scan sha256hex parseDate now st qrData hpair h1 h2 h3 h4 h5

/-- The attendance row created by the successful demo commit. -/
def demoRec : Attendance :=
  { id := 1, studentId := 2, sessionId := 5, timestamp := 0, qrCode := "2:5:0" }

/-- The demo store right after the successful commit of `demoQR`. -/
def demoStoreAfter : MemStorage :=
  { demoStore with attendances := [(1, demoRec)], currentAttendanceId := 2 }

/-- Witness for C2 at a concrete input: committing the demo token once
and presenting it again yields AlreadyRecorded and no state change. -/
theorem attendance_pair_unique_witness :
    uniquePairs demoStoreAfter ∧
    scanAttendance demoSha demoParse 0 demoStoreAfter demoQR =
      (.alreadyRecorded, demoStoreAfter) := by
  have h := attendance_pair_unique demoSha demoParse 0 demoStore demoStoreAfter
    demoStoreAfter demoQR demoRec
    ⟨by unfold uniquePairs; exact List.Pairwise.nil, by decide⟩
    (by decide) (Reachable.refl _)
  exact ⟨h.1, h.2 demoSha demoParse 0 demoQR (by decide) (by decide) (by decide)
    (by decide) (by decide) (by decide) (by decide)⟩

/-- Claim C3: with a matching fingerprint, a token issued 599 seconds ago
passes the expiry check, one issued 601 seconds ago is rejected with
TokenExpired, and the boundary of exactly 600 seconds still passes: the
code compares the elapsed time with strict greater-than against
600000 ms, so the window is inclusive at 600 s. -/
theorem expiry_boundary (sha256hex : String → String) (parseDate : String → Option Int)
    (now : Int) (st : MemStorage) (qrData : QRCodeData)
    (hhash : checkHash sha256hex qrData = true) :
    (parseDate qrData.timestamp = some (now - 599000) →
      expiredCheck parseDate now qrData.timestamp = false) ∧
    (parseDate qrData.timestamp = some (now - 601000) →
      scanAttendance sha256hex parseDate now st qrData = (.tokenExpired, st)) ∧
    (parseDate qrData.timestamp = some (now - 600000) →
      expiredCheck parseDate now qrData.timestamp = false) := by
  refine ⟨?_, ?_, ?_⟩
  · intro hp
    simp only [expiredCheck, hp]
    have h : ¬ (now - (now - 599000) > 600000) := by omega
    simp [h]
  · intro hp
    rw [scanAttendance_eq_checks]
    have hexp : expiredCheck parseDate now qrData.timestamp = true := by
      simp only [expiredCheck, hp]
      have h : now - (now - 601000) > 600000 := by omega
      simp [h]
    have h2 : checkNotExpired parseDate now qrData = false := by
      simp [checkNotExpired, hexp]
    simp [hhash, h2]
  · intro hp
    simp only [expiredCheck, hp]
    have h : ¬ (now - (now - 600000) > 600000) := by omega
    simp [h]

/-- Witness for C3 at concrete inputs: timestamp 0 checked at 599 s,
601 s and exactly 600 s after issue. -/
theorem expiry_boundary_witness :
    expiredCheck demoParse 599000 "0" = false ∧
    scanAttendance demoSha demoParse 601000 demoStore demoQR = (.tokenExpired, demoStore) ∧
    expiredCheck demoParse 600000 "0" = false :=
  ⟨(expiry_boundary demoSha demoParse 599000 demoStore demoQR (by decide)).1 (by decide),
   (expiry_boundary demoSha demoParse 601000 demoStore demoQR (by decide)).2.1 (by decide),
   (expiry_boundary demoSha demoParse 600000 demoStore demoQR (by decide)).2.2 (by decide)⟩

/-- Claim C9: the validator rejects with TokenExpired exactly when the
fingerprint matched and the parsed issue time lies strictly more than
600000 ms in the past; a future-dated token always passes the expiry
check, and an unparseable timestamp (a NaN difference in JavaScript)
also passes instead of being rejected. -/
theorem expiry_semantics (sha256hex : String → String) (parseDate : String → Option Int)
    (now : Int) (st : MemStorage) (qrData : QRCodeData) :
    ((scanAttendance sha256hex parseDate now st qrData).1 = .tokenExpired ↔
      checkHash sha256hex qrData = true ∧
      ∃ t, parseDate qrData.timestamp = some t ∧ now - t > 600000) ∧
    (∀ t, parseDate qrData.timestamp = some t → now ≤ t →
      expiredCheck parseDate now qrData.timestamp = false) ∧
    (parseDate qrData.timestamp = none →
      expiredCheck parseDate now qrData.timestamp = false) := by
  have hexpiff : expiredCheck parseDate now qrData.timestamp = true ↔
      ∃ t, parseDate qrData.timestamp = some t ∧ now - t > 600000 := by
    unfold expiredCheck
    cases hp : parseDate qrData.timestamp with
    | none => simp
    | some t => simp
  refine ⟨?_, ?_, ?_⟩
  · constructor
    · intro hres
      by_cases h1 : checkHash sha256hex qrData = false
      · rw [scanAttendance_eq_checks] at hres
        simp [h1] at hres
      · have h1t : checkHash sha256hex qrData = true := by
          revert h1; cases checkHash sha256hex qrData <;> simp
        refine ⟨h1t, hexpiff.mp ?_⟩
        by_cases h2 : expiredCheck parseDate now qrData.timestamp = true
        · exact h2
        · exfalso
          have h2f : checkNotExpired parseDate now qrData = true := by
            unfold checkNotExpired
            revert h2; cases expiredCheck parseDate now qrData.timestamp <;> simp
          rw [scanAttendance_eq_checks] at hres
          by_cases h3 : checkStudent st qrData = false <;>
            by_cases h4 : checkSession st qrData = false <;>
            by_cases h5 : checkEnrolled st qrData = false <;>
            by_cases h6 : checkNotDuplicate st qrData = false <;>
            simp [h1t, h2f, h3, h4, h5, h6] at hres
    · rintro ⟨h1t, hex⟩
      rw [scanAttendance_eq_checks]
      have hexp : expiredCheck parseDate now qrData.timestamp = true := hexpiff.mpr hex
      have h2 : checkNotExpired parseDate now qrData = false := by
        simp [checkNotExpired, hexp]
      simp [h1t, h2]
  · intro t hp hle
    simp only [expiredCheck, hp]
    have : ¬ (now - t > 600000) := by omega
    simpa using this
  · intro hp
    simp [expiredCheck, hp]

/-- Witness for C9 at concrete inputs: an unparseable timestamp and a
future timestamp both pass the expiry check. -/
theorem expiry_semantics_witness :
    expiredCheck demoParse 0 "not-a-date" = false ∧
    expiredCheck demoParse (-5000000) "0" = false := by
  constructor
  · exact (expiry_semantics demoSha demoParse 0 demoStore
      { studentId := 2, sessionId := 5, timestamp := "not-a-date", hash := "x" }).2.2
      (by decide)
  · exact (expiry_semantics demoSha demoParse (-5000000) demoStore demoQR).2.1 0
      (by decide) (by decide)

/-- The running maximum-by-date fold lands on a member of the list that
every element's date is below or equal to. -/
theorem foldl_latest_spec (s : Session) (rest : List Session) :
    (rest.foldl (fun best cur => if cur.date > best.date then cur else best) s) ∈ s :: rest ∧
    s.date ≤ (rest.foldl (fun best cur => if cur.date > best.date then cur else best) s).date ∧
    ∀ x ∈ rest, x.date ≤
      (rest.foldl (fun best cur => if cur.date > best.date then cur else best) s).date := by
  induction rest generalizing s with
  | nil => simp
  | cons c cs ih =>
    obtain ⟨h1, h2, h3⟩ := ih (if c.date > s.date then c else s)
    rw [List.foldl_cons]
    refine ⟨?_, ?_, ?_⟩
    · rcases List.mem_cons.mp h1 with h | h
      · rw [h]
        by_cases hc : c.date > s.date <;> simp [hc]
      · simp [List.mem_cons.mpr (Or.inr (List.mem_cons.mpr (Or.inr h)))]
    · refine le_trans ?_ h2
      by_cases hc : c.date > s.date
      · simp only [if_pos hc]; omega
      · simp [hc]
    · intro x hx
      rcases List.mem_cons.mp hx with h | h
      · subst h
        refine le_trans ?_ h2
        by_cases hc : x.date > s.date
        · simp [hc]
        · simp only [if_neg hc]; omega
      · exact h3 x h

/-- Claim C6: issuance returns NoSessionAvailable exactly when the store
holds no class session; otherwise the returned token targets a session
whose date is maximal among all stored sessions, its fingerprint is
computed over the single captured issue timestamp, and the expiry budget
is 600 seconds. -/
theorem issuance_latest_session (sha256hex : String → String) (st : MemStorage)
    (studentId : Int) (nowISO : String) :
    ((generateQR sha256hex st studentId nowISO).1 = .noSessionAvailable ↔
      getSessions st = []) ∧
    (∀ qrData expiresIn,
      (generateQR sha256hex st studentId nowISO).1 = .issued qrData expiresIn →
      expiresIn = 600 ∧ qrData.studentId = studentId ∧ qrData.timestamp = nowISO ∧
      qrData.hash = generateQRHash sha256hex studentId qrData.sessionId nowISO ∧
      ∃ s ∈ getSessions st, s.id = qrData.sessionId ∧
        ∀ s2 ∈ getSessions st, s2.date ≤ s.date) := by
  cases hl : getSessions st with
  | nil =>
    constructor
    · simp [generateQR, hl, latestSession]
    · intro qrData expiresIn hq
      rw [generateQR, hl] at hq
      simp [latestSession] at hq
  | cons s0 rest =>
    have hfold := foldl_latest_spec s0 rest
    constructor
    · rw [generateQR, hl]
      simp [latestSession]
    · intro qrData expiresIn hq
      rw [generateQR, hl] at hq
      simp only [latestSession] at hq
      obtain ⟨hqr, he⟩ := (IssueResult.issued.injEq _ _ _ _).mp hq
      refine ⟨he.symm, ?_, ?_, ?_, ?_⟩
      · rw [← hqr]
      · rw [← hqr]
      · rw [← hqr]
      · refine ⟨rest.foldl (fun best cur => if cur.date > best.date then cur else best) s0,
          ?_, ?_, ?_⟩
        · exact hfold.1
        · rw [← hqr]
        · intro s2 hs2
          rcases List.mem_cons.mp hs2 with h | h
          · rw [h]; exact hfold.2.1
          · exact hfold.2.2 s2 h

/-- Witness for C6 at a concrete input: issuing on the demo store targets
session 5 (the only, hence latest, session). -/
theorem issuance_latest_session_witness :
    (generateQR demoSha demoStore 2 "0").1 =
      .issued { studentId := 2, sessionId := 5, timestamp := "0", hash := "2:5:0" } 600 ∧
    ∃ s ∈ getSessions demoStore, s.id = 5 ∧ ∀ s2 ∈ getSessions demoStore, s2.date ≤ s.date := by
  have h := (issuance_latest_session demoSha demoStore 2 "0").2
    { studentId := 2, sessionId := 5, timestamp := "0", hash := "2:5:0" } 600 (by decide)
  exact ⟨by decide, h.2.2.2.2⟩

/-- Claim C8: issuance never mutates the store, and two successive
issuances both succeed with tokens that each pass fingerprint
verification — no single-active-token constraint exists. -/
theorem issuance_frame (sha256hex : String → String) (st : MemStorage)
    (studentId : Int) (nowISO nowISO2 : String) :
    (generateQR sha256hex st studentId nowISO).2 = st ∧
    (∀ qr1 e1, (generateQR sha256hex st studentId nowISO).1 = .issued qr1 e1 →
      checkHash sha256hex qr1 = true ∧
      ∃ qr2 e2,
        (generateQR sha256hex (generateQR sha256hex st studentId nowISO).2
          studentId nowISO2).1 = .issued qr2 e2 ∧
        checkHash sha256hex qr2 = true) := by
  cases hl : latestSession (getSessions st) with
  | none =>
    constructor
    · rw [generateQR, hl]
    · intro qr1 e1 hq
      rw [generateQR, hl] at hq
      cases hq
  | some s =>
    have hframe : (generateQR sha256hex st studentId nowISO).2 = st := by
      rw [generateQR, hl]
    refine ⟨hframe, ?_⟩
    intro qr1 e1 hq
    rw [generateQR, hl] at hq
    obtain ⟨hqr, -⟩ := (IssueResult.issued.injEq _ _ _ _).mp hq
    constructor
    · rw [← hqr]
      simp [checkHash, generateQRHash]
    · refine ⟨⟨studentId, s.id, nowISO2, generateQRHash sha256hex studentId s.id nowISO2⟩,
        600, ?_, ?_⟩
      · rw [hframe, generateQR, hl]
      · simp [checkHash, generateQRHash]

/-- Witness for C8 at a concrete input: two successive issuances on the
demo store both verify. -/
theorem issuance_frame_witness :
    (generateQR demoSha demoStore 2 "0").2 = demoStore ∧
    checkHash demoSha { studentId := 2, sessionId := 5, timestamp := "0", hash := "2:5:0" } = true := by
  have h := issuance_frame demoSha demoStore 2 "0" "0"
  exact ⟨h.1, (h.2 { studentId := 2, sessionId := 5, timestamp := "0", hash := "2:5:0" } 600
    (by decide)).1⟩

/-- The demo store with the enrollment of student 2 removed. -/
def demoStoreNoEnroll : MemStorage := { demoStore with enrollments := [] }

/-- Claim C10: issuance does not guarantee a redeemable token — on a
store where student 2 exists but is not enrolled in the course of the
globally latest session, the issued token is structurally valid,
fingerprint-correct and unexpired, yet the validator rejects it with
NotEnrolled, because the issuer never consults the requesting student's
enrollments. -/
theorem issued_token_not_enrolled :
    ∃ qrData expiresIn,
      (generateQR demoSha demoStoreNoEnroll 2 "0").1 = .issued qrData expiresIn ∧
      checkHash demoSha qrData = true ∧
      checkNotExpired demoParse 0 qrData = true ∧
      checkStudent demoStoreNoEnroll qrData = true ∧
      checkSession demoStoreNoEnroll qrData = true ∧
      scanAttendance demoSha demoParse 0 demoStoreNoEnroll qrData =
        (.notEnrolled, demoStoreNoEnroll) := by
  refine ⟨{ studentId := 2, sessionId := 5, timestamp := "0", hash := "2:5:0" }, 600,
    ?_, ?_, ?_, ?_, ?_, ?_⟩ <;> decide

/-- Claim C7: the codec's compute is a pure total function: for every
input — ids of any value and any timestamp string, parseable or not — it
returns exactly one fingerprint.  The source has no failure path at all
(sha-256 of the joined string always succeeds), so it fails only on
malformed input vacuously and succeeds with a fingerprint on all other
inputs. -/
theorem codec_total (sha256hex : String → String) (studentId sessionId : Int)
    (timestamp : String) :
    ∃! fp : String, generateQRHash sha256hex studentId sessionId timestamp = fp :=
  ⟨generateQRHash sha256hex studentId sessionId timestamp, rfl, fun _ h => h.symm⟩

/-- Witness for C7 at a concrete input. -/
theorem codec_total_witness : generateQRHash demoSha 2 5 "0" = "2:5:0" :=
  (codec_total demoSha 2 5 "0").unique rfl (by decide)

/-- The numeric value of a decimal digit character. -/
def digitVal (c : Char) : Nat := c.toNat - 48

/-- The value of a big-endian list of decimal digit characters. -/
def digitsVal : List Char → Nat
  | [] => 0
  | c :: cs => digitVal c * 10 ^ cs.length + digitsVal cs

/-- `digitVal` inverts `Nat.digitChar` on decimal digits. -/
theorem digitVal_digitChar : ∀ m, m < 10 → digitVal (Nat.digitChar m) = m := by decide

/-- Decimal digit characters are never the minus sign. -/
theorem digitChar_ne_dash : ∀ m, m < 10 → Nat.digitChar m ≠ '-' := by decide

/-- Evaluation of the core numeral printer: with enough fuel it prepends
the digits of `n` before the accumulator. -/
theorem toDigitsCore_val (fuel : Nat) : ∀ (n : Nat) (ds : List Char), n < fuel →
    digitsVal (Nat.toDigitsCore 10 fuel n ds) = n * 10 ^ ds.length + digitsVal ds := by
  induction fuel with
  | zero => intro n ds h; exact absurd h (Nat.not_lt_zero n)
  | succ f ih =>
    intro n ds h
    simp only [Nat.toDigitsCore]
    by_cases hz : n / 10 = 0
    · rw [if_pos hz]
      have hd : digitVal (Nat.digitChar (n % 10)) = n % 10 :=
        digitVal_digitChar _ (by omega)
      simp only [digitsVal, hd]
      have : n % 10 = n := by omega
      rw [this]
    · rw [if_neg hz]
      have hlt : n / 10 < f := by omega
      rw [ih (n / 10) (Nat.digitChar (n % 10) :: ds) hlt]
      have hd : digitVal (Nat.digitChar (n % 10)) = n % 10 :=
        digitVal_digitChar _ (by omega)
      simp only [digitsVal, hd, List.length_cons, pow_succ]
      have hn : n = 10 * (n / 10) + n % 10 := (Nat.div_add_mod n 10).symm
      conv_rhs => rw [hn]
      ring

/-- `digitsVal` recovers the printed number. -/
theorem digitsVal_toDigits (n : Nat) : digitsVal (Nat.toDigits 10 n) = n := by
  unfold Nat.toDigits
  rw [toDigitsCore_val (n + 1) n [] (Nat.lt_succ_self n)]
  simp [digitsVal]

/-- The data of `Nat.repr` is the digit list. -/
theorem nat_repr_data (n : Nat) : (Nat.repr n).data = Nat.toDigits 10 n := rfl

/-- Two strings with equal character data are equal. -/
theorem string_data_inj {s t : String} (h : s.data = t.data) : s = t := by
  cases s
  cases t
  exact congrArg String.mk h

/-- The decimal printer for naturals is injective. -/
theorem nat_repr_injective : Function.Injective Nat.repr := by
  intro a b h
  have hdl : Nat.toDigits 10 a = Nat.toDigits 10 b := by
    rw [← nat_repr_data a, ← nat_repr_data b, h]
  have := congrArg digitsVal hdl
  rwa [digitsVal_toDigits, digitsVal_toDigits] at this

/-- The core numeral printer only prepends decimal digit characters, and
prepends at least one when it has fuel. -/
theorem toDigitsCore_shape (fuel : Nat) : ∀ (n : Nat) (ds : List Char),
    ∃ pre, Nat.toDigitsCore 10 fuel n ds = pre ++ ds ∧
      (∀ c ∈ pre, ∃ m, m < 10 ∧ c = Nat.digitChar m) ∧ (fuel ≠ 0 → pre ≠ []) := by
  induction fuel with
  | zero =>
    intro n ds
    exact ⟨[], rfl, by simp, by simp⟩
  | succ f ih =>
    intro n ds
    simp only [Nat.toDigitsCore]
    by_cases hz : n / 10 = 0
    · refine ⟨[Nat.digitChar (n % 10)], by rw [if_pos hz]; rfl, ?_, by simp⟩
      intro c hc
      simp only [List.mem_singleton] at hc
      exact ⟨n % 10, by omega, hc⟩
    · obtain ⟨pre, hpre, hdig, -⟩ := ih (n / 10) (Nat.digitChar (n % 10) :: ds)
      refine ⟨pre ++ [Nat.digitChar (n % 10)], ?_, ?_, by simp⟩
      · rw [if_neg hz, hpre]
        simp
      · intro c hc
        rcases List.mem_append.mp hc with hc1 | hc2
        · exact hdig c hc1
        · simp only [List.mem_singleton] at hc2
          exact ⟨n % 10, by omega, hc2⟩

/-- A natural's decimal rendering never equals a dash-prefixed string. -/
theorem nat_repr_ne_dash (a : Nat) (s : String) : Nat.repr a ≠ "-" ++ s := by
  intro h
  have hdata : Nat.toDigits 10 a = '-' :: s.data := by
    rw [← nat_repr_data a, h]
    rfl
  obtain ⟨pre, hpre, hdig, hne⟩ := toDigitsCore_shape (a + 1) a []
  unfold Nat.toDigits at hdata
  rw [hpre, List.append_nil] at hdata
  cases pre with
  | nil => exact (hne (Nat.succ_ne_zero a)) rfl
  | cons c pre2 =>
    have hc : c = '-' := (List.cons.injEq _ _ _ _).mp hdata |>.1
    obtain ⟨m, hm, hcm⟩ := hdig c (List.mem_cons_self _ _)
    exact digitChar_ne_dash m hm (hcm ▸ hc)

/-- `toString` on `Int` renders `ofNat` as the digits. -/
theorem int_toString_ofNat (m : Nat) : toString (Int.ofNat m) = Nat.repr m := rfl

/-- `toString` on `Int` renders `negSucc` as dash and digits. -/
theorem int_toString_negSucc (m : Nat) :
    toString (Int.negSucc m) = "-" ++ Nat.repr (m + 1) := rfl

/-- JavaScript-style decimal rendering of integers is injective. -/
theorem int_toString_injective : Function.Injective (fun i : Int => toString i) := by
  intro a b h
  simp only at h
  cases a with
  | ofNat m =>
    cases b with
    | ofNat k =>
      rw [int_toString_ofNat, int_toString_ofNat] at h
      exact congrArg Int.ofNat (nat_repr_injective h)
    | negSucc k =>
      rw [int_toString_ofNat, int_toString_negSucc] at h
      exact absurd h (nat_repr_ne_dash m _)
  | negSucc m =>
    cases b with
    | ofNat k =>
      rw [int_toString_ofNat, int_toString_negSucc] at h
      exact absurd h.symm (nat_repr_ne_dash k _)
    | negSucc k =>
      rw [int_toString_negSucc, int_toString_negSucc] at h
      have hdat := congrArg String.data h
      simp only [String.data_append] at hdat
      have hrepr : Nat.repr (m + 1) = Nat.repr (k + 1) :=
        string_data_inj (List.append_cancel_left hdat)
      have := nat_repr_injective hrepr
      exact congrArg Int.negSucc (by omega)

/-- The hash input determines the studentId when the other fields agree. -/
theorem qrHashInput_studentId_inj (s s2 i : Int) (t : String)
    (h : qrHashInput s i t = qrHashInput s2 i t) : s = s2 := by
  have hd := congrArg String.data h
  simp only [qrHashInput, String.data_append] at hd
  have h1 := List.append_cancel_right hd
  have h2 := List.append_cancel_right h1
  have h3 := List.append_cancel_right h2
  have h4 := List.append_cancel_right h3
  exact int_toString_injective (string_data_inj h4)

/-- The hash input determines the sessionId when the other fields agree. -/
theorem qrHashInput_sessionId_inj (s i i2 : Int) (t : String)
    (h : qrHashInput s i t = qrHashInput s i2 t) : i = i2 := by
  have hd := congrArg String.data h
  simp only [qrHashInput, String.data_append] at hd
  have h1 := List.append_cancel_right hd
  have h2 := List.append_cancel_right h1
  have h3 := List.append_cancel_left h2
  exact int_toString_injective (string_data_inj h3)

/-- The hash input determines the timestamp when the other fields agree. -/
theorem qrHashInput_timestamp_inj (s i : Int) (t t2 : String)
    (h : qrHashInput s i t = qrHashInput s i t2) : t = t2 := by
  have hd := congrArg String.data h
  simp only [qrHashInput, String.data_append] at hd
  exact string_data_inj (List.append_cancel_left hd)

/-- Claim C4: for every fingerprint-correct token, changing exactly one
of studentId, sessionId or issuedAt while keeping the old fingerprint
makes the recomputed hash differ (assuming the hash function is injective
on distinct input strings), so the validator rejects the mutated token
with InvalidToken. -/
theorem tamper_sensitivity (sha256hex : String → String)
    (parseDate : String → Option Int) (now : Int) (st : MemStorage) (qrData : QRCodeData)
    (hinj : Function.Injective sha256hex)
    (hvalid : qrData.hash =
      generateQRHash sha256hex qrData.studentId qrData.sessionId qrData.timestamp) :
    (∀ s2, s2 ≠ qrData.studentId →
      scanAttendance sha256hex parseDate now st { qrData with studentId := s2 } =
        (.invalidToken, st)) ∧
    (∀ i2, i2 ≠ qrData.sessionId →
      scanAttendance sha256hex parseDate now st { qrData with sessionId := i2 } =
        (.invalidToken, st)) ∧
    (∀ t2, t2 ≠ qrData.timestamp →
      scanAttendance sha256hex parseDate now st { qrData with timestamp := t2 } =
        (.invalidToken, st)) := by
  refine ⟨?_, ?_, ?_⟩
  · intro s2 hs2
    rw [scanAttendance_eq_checks]
    have hne : checkHash sha256hex { qrData with studentId := s2 } = false := by
      simp only [checkHash, beq_eq_false_iff_ne, ne_eq]
      intro hcontra
      simp only [generateQRHash] at hcontra hvalid
      rw [hvalid] at hcontra
      exact hs2 (qrHashInput_studentId_inj _ _ _ _ (hinj hcontra).symm)
    simp [hne]
  · intro i2 hi2
    rw [scanAttendance_eq_checks]
    have hne : checkHash sha256hex { qrData with sessionId := i2 } = false := by
      simp only [checkHash, beq_eq_false_iff_ne, ne_eq]
      intro hcontra
      simp only [generateQRHash] at hcontra hvalid
      rw [hvalid] at hcontra
      exact hi2 (qrHashInput_sessionId_inj _ _ _ _ (hinj hcontra).symm)
    simp [hne]
  · intro t2 ht2
    rw [scanAttendance_eq_checks]
    have hne : checkHash sha256hex { qrData with timestamp := t2 } = false := by
      simp only [checkHash, beq_eq_false_iff_ne, ne_eq]
      intro hcontra
      simp only [generateQRHash] at hcontra hvalid
      rw [hvalid] at hcontra
      exact ht2 (qrHashInput_timestamp_inj _ _ _ _ (hinj hcontra).symm)
    simp [hne]

/-- Witness for C4 at a concrete input: bumping the sessionId of the
valid demo token while keeping its fingerprint is rejected as an invalid
token. -/
theorem tamper_sensitivity_witness :
    scanAttendance demoSha demoParse 0 demoStore
      { demoQR with sessionId := 6 } = (.invalidToken, demoStore) :=
  (tamper_sensitivity demoSha demoParse 0 demoStore demoQR
    (fun a b hab => hab) (by decide)).2.1 6 (by decide)

end NUTMQR
